import Mathlib

/-!
# scard (Windows backend): a shallow embedding of `scard_windows.go`

The wrappers of `scard_windows.go` are embedded as pure functions.  A call
through a `syscall.LazyProc` is a query to an explicit model of the native
resource manager (`Native`), and every wrapper returns, next to its Go
result, the list of native requests it issued.  Go run-time panics are an
explicit outcome (`Run.panicked`).
-/

namespace Scard

/-! ## Outcomes of running Go code -/

/-- Outcome of running a Go function body: it returns a value, it panics, or
the bounded model of one of its loops ran out of iterations. -/
inductive Run (α : Type) where
  | returned (a : α)
  | panicked (msg : String)
  | unfinished
  deriving DecidableEq, Repr

/-- Post-compose a function with a returned value. -/
def Run.map {α β : Type} (f : α → β) : Run α → Run β
  | Run.returned a => Run.returned (f a)
  | Run.panicked msg => Run.panicked msg
  | Run.unfinished => Run.unfinished

/-! ## Multi-string decoding (`ListReaders`, `ListReaderGroups`) -/

/-- The inner scan `for ; pos < len(data); pos++ { if data[pos] == 0 { break } }`.
The first argument is `data[pos:]`, the second is `pos`; the result is the
value of `pos` when the scan ends. -/
def scanNul : List Nat → Nat → Nat
  | [], pos => pos
  | x :: rest, pos => if x = 0 then pos else scanNul rest (pos + 1)

/-- The loop of `ListReaders` (source lines 125-138).  `UTF16ToString` is the
library conversion `syscall.UTF16ToString`, taken as a parameter; `data` is
the `[]uint16` buffer and `readers` the slice built so far.  The first
argument bounds the number of iterations. -/
def ListReaders_loop {σ : Type} (UTF16ToString : List Nat → σ) :
    Nat → List Nat → List σ → Run (List σ)
  | 0, _, _ => Run.unfinished
  | fuel + 1, data, readers =>
    if data.length > 0 then
      let pos := scanNul data 0
      let readers :=
        if data.headD 0 ≠ 0 then readers ++ [UTF16ToString (data.take pos)] else readers
      -- `data = data[pos+1:]` panics when `pos+1 > len(data)`
      if pos + 1 ≤ data.length then
        ListReaders_loop UTF16ToString fuel (data.drop (pos + 1)) readers
      else Run.panicked "slice bounds out of range"
    else Run.returned readers

/-- The decoding part of `ListReaders`: `var readers []string` followed by the
loop over the filled buffer.  Every iteration removes at least one code unit,
so `len(data) + 1` iterations always suffice. -/
def ListReaders_decode {σ : Type} (UTF16ToString : List Nat → σ) (data : List Nat) :
    Run (List σ) :=
  ListReaders_loop UTF16ToString (data.length + 1) data []

/-- The loop of `ListReaderGroups` (source lines 164-177). -/
def ListReaderGroups_loop {σ : Type} (UTF16ToString : List Nat → σ) :
    Nat → List Nat → List σ → Run (List σ)
  | 0, _, _ => Run.unfinished
  | fuel + 1, data, groups =>
    if data.length > 0 then
      let pos := scanNul data 0
      let groups :=
        if data.headD 0 ≠ 0 then groups ++ [UTF16ToString (data.take pos)] else groups
      if pos + 1 ≤ data.length then
        ListReaderGroups_loop UTF16ToString fuel (data.drop (pos + 1)) groups
      else Run.panicked "slice bounds out of range"
    else Run.returned groups

/-- The decoding part of `ListReaderGroups`. -/
def ListReaderGroups_decode {σ : Type} (UTF16ToString : List Nat → σ) (data : List Nat) :
    Run (List σ) :=
  ListReaderGroups_loop UTF16ToString (data.length + 1) data []

/-- The strings of a multi-string, each followed by its NUL:
`s1 ++ [0] ++ ... ++ sN ++ [0]`. -/
def segments : List (List Nat) → List Nat
  | [] => []
  | s :: rest => s ++ 0 :: segments rest

/-- The multi-string encoding `s1 ++ [0] ++ ... ++ sN ++ [0] ++ [0]` produced
by the native layer; for no strings it is `[0]`. -/
def encode (L : List (List Nat)) : List Nat :=
  segments L ++ [0]

/-! ## Machine integers and Go built-ins -/

/-- Conversion of an integer to `uint32`: the value modulo `2^32`. -/
def uint32 (x : Int) : Nat := (x % 2 ^ 32).toNat

/-- The built-in `make([]byte, n)`: `n` zero bytes. -/
def makeBytes (n : Nat) : List Nat := List.replicate n 0

/-- The built-in `copy(dst, src)`: the contents of `dst` afterwards.  It copies
`min(len(dst), len(src))` elements and leaves the rest of `dst` alone. -/
def goCopy (dst src : List Nat) : List Nat :=
  src.take dst.length ++ dst.drop src.length

/-- Go errors that the wrappers return: an scard `Error` carrying the numeric
status code, or `syscall.EINVAL` from `syscall.UTF16PtrFromString`. -/
inductive GoError where
  | scard (code : Nat)
  | EINVAL
  deriving DecidableEq, Repr

/-! ## Declarations of the package that live outside `scard_windows.go` -/

/-- Modelled from the spec: the constant `infiniteTimeout` is declared outside
`scard_windows.go`; the spec gives the native "infinite" timeout as
`0xFFFFFFFF`. -/
def infiniteTimeout : Nat := 0xFFFFFFFF

/-- The constant `time.Millisecond` of the Go library, in nanoseconds. -/
def Millisecond : Int := 1000000

/-- Modelled from the spec: the type `Error` is declared outside
`scard_windows.go`; the spec describes the status code as a 32-bit value, so
the conversion `Error(r)` of a `uintptr` keeps the low 32 bits. -/
def Error (r : Nat) : Nat := uint32 r

/-- Modelled from the spec: the type `Protocol` is declared outside
`scard_windows.go`; it is carried as a 32-bit word like the other native
values, so the conversion `Protocol(x)` of a `uintptr` keeps the low 32 bits. -/
def Protocol (x : Nat) : Nat := uint32 x

/-- Modelled from the spec: the type `StateFlag` is declared outside
`scard_windows.go`; the spec calls it a bitmask, and the conversion
`StateFlag(x)` of a `uint32` field keeps its value. -/
def StateFlag (x : Nat) : Nat := x

/-- The constants and package variables that `scard_windows.go` uses and that
are declared elsewhere or bound at start-up, taken as parameters: the success
sentinel, the two protocol constants (distinct, as `case` labels of one
`switch`), the addresses of the two framing descriptors found by `init`, and
the capacity of the receive buffer of `Transmit`. -/
structure Env where
  ErrSuccess : Nat
  ProtocolT0 : Nat
  ProtocolT1 : Nat
  scardIoReqT0 : Nat
  scardIoReqT1 : Nat
  maxBufferSizeExtended : Nat
  deriving DecidableEq, Repr

/-- The values of the parameters on the reference platform (`winscard.h`):
success is `0`, `T0` is `1`, `T1` is `2`; the descriptor addresses are two
arbitrary distinct addresses and the receive capacity is the extended APDU
maximum named by the spec. -/
def winscard : Env :=
  { ErrSuccess := 0, ProtocolT0 := 1, ProtocolT1 := 2,
    scardIoReqT0 := 4096, scardIoReqT1 := 4112, maxBufferSizeExtended := 65544 }

/-! ## Data model -/

/-- The Go type `Context`. -/
structure Context where
  ctx : Nat
  deriving DecidableEq, Repr

/-- The Go type `Card`. -/
structure Card where
  handle : Nat
  activeProtocol : Nat
  deriving DecidableEq, Repr

/-- Modelled from the spec: the type `ReaderState` is declared outside
`scard_windows.go`; these are the fields that `GetStatusChange` reads and
writes (reader name as the bytes of the Go string, current-state bitmask,
event-state bitmask, ATR bytes). -/
structure ReaderState where
  Reader : List Nat
  CurrentState : Nat
  EventState : Nat
  Atr : List Nat
  deriving DecidableEq, Repr

/-- The Go type `scardReaderState`.  `szReader` holds what the pointer refers
to (the NUL-terminated UTF-16 copy of the name, empty for the nil pointer);
`rgbAtr` is the `[36]byte` array. -/
structure scardReaderState where
  szReader : List Nat
  pvUserData : Nat
  dwCurrentState : Nat
  dwEventState : Nat
  cbAtr : Nat
  rgbAtr : List Nat
  deriving DecidableEq, Repr

/-- The zero value of `scardReaderState`, as produced by `make`. -/
def scardReaderState.zero : scardReaderState :=
  { szReader := [], pvUserData := 0, dwCurrentState := 0, dwEventState := 0,
    cbAtr := 0, rgbAtr := makeBytes 36 }

/-! ## The native resource manager -/

/-- The lazily bound procedures of `winscard.dll` that the modelled wrappers call. -/
inductive Proc where
  | procRelease
  | procIsValid
  | procCancel
  | procGetStatusChange
  | procDisconnect
  | procReconnect
  | procBeginTransaction
  | procEndTransaction
  | procTransmit
  deriving DecidableEq, Repr

/-- One argument of `proc.Call(...)`: a plain `uintptr` value, or a pointer,
represented by what it points at when the call is made. -/
inductive Arg where
  | word (v : Nat)
  | bytes (p : List Nat)
  | dword (p : Nat)
  | states (p : List scardReaderState)
  deriving DecidableEq, Repr

/-- One native request: the procedure and its argument list, in order. -/
structure Request where
  proc : Proc
  args : List Arg
  deriving DecidableEq, Repr

/-- What the native layer does for one request: the status `r1` returned by
`Call`, and the contents after the call of the memory the request pointed at
(reader-state array, receive buffer, received length).  A wrapper reads only
the parts its request has pointers for. -/
structure Response where
  r1 : Nat
  states : List scardReaderState
  recv : List Nat
  recvlen : Nat
  deriving DecidableEq, Repr

/-- The native resource manager as seen by one wrapper call. -/
abbrev Native := Request → Response

/-- Result of a wrapper: the native requests it issued, in order, and how the
Go function ended. -/
structure Traced (α : Type) where
  calls : List Request
  out : Run α

/-! ## Context wrappers -/

/-- The wrapper `(*Context).IsValid`. -/
def Context.IsValid (env : Env) (sys : Native) (ctx : Context) : Traced (Bool × Option GoError) :=
  let q : Request := ⟨Proc.procIsValid, [Arg.word ctx.ctx]⟩
  let r := (sys q).r1
  if Error r ≠ env.ErrSuccess then ⟨[q], Run.returned (false, some (GoError.scard (Error r)))⟩
  else ⟨[q], Run.returned (true, none)⟩

/-- The wrapper `(*Context).Cancel`. -/
def Context.Cancel (env : Env) (sys : Native) (ctx : Context) : Traced (Option GoError) :=
  let q : Request := ⟨Proc.procCancel, [Arg.word ctx.ctx]⟩
  let r := (sys q).r1
  if Error r ≠ env.ErrSuccess then ⟨[q], Run.returned (some (GoError.scard (Error r)))⟩
  else ⟨[q], Run.returned none⟩

/-- The wrapper `(*Context).Release`. -/
def Context.Release (env : Env) (sys : Native) (ctx : Context) : Traced (Option GoError) :=
  let q : Request := ⟨Proc.procRelease, [Arg.word ctx.ctx]⟩
  let r := (sys q).r1
  if Error r ≠ env.ErrSuccess then ⟨[q], Run.returned (some (GoError.scard (Error r)))⟩
  else ⟨[q], Run.returned none⟩

/-! ## GetStatusChange -/

/-- The `switch` that computes `dwTimeout` from `timeout` (a `time.Duration`,
a signed 64-bit count of nanoseconds).  Go integer division truncates toward
zero. -/
def GetStatusChange_dwTimeout (timeout : Int) : Nat :=
  if timeout < 0 then infiniteTimeout
  else if timeout > (infiniteTimeout : Int) * Millisecond then infiniteTimeout - 1
  else uint32 (Int.tdiv timeout Millisecond)

/-- The library function `syscall.UTF16PtrFromString`: it fails with `EINVAL`
when the string holds a NUL byte, and otherwise returns a pointer to the
NUL-terminated UTF-16 copy, `utf16` being the library encoder. -/
def UTF16PtrFromString (utf16 : List Nat → List Nat) (s : List Nat) : Except GoError (List Nat) :=
  if 0 ∈ s then Except.error GoError.EINVAL else Except.ok (utf16 s ++ [0])

/-- The first loop of `GetStatusChange` (source lines 206-215), run over the
reader states in order on the zeroed `crs`; the result is the filled `crs`,
or the error of the first name that cannot be converted. -/
def GetStatusChange_fill (utf16 : List Nat → List Nat) :
    List ReaderState → Except GoError (List scardReaderState)
  | [] => Except.ok []
  | rs :: rest =>
    match UTF16PtrFromString utf16 rs.Reader with
    | Except.error err => Except.error err
    | Except.ok rptr =>
      let c : scardReaderState :=
        { scardReaderState.zero with
          szReader := rptr
          dwCurrentState := uint32 rs.CurrentState
          cbAtr := uint32 rs.Atr.length
          rgbAtr := goCopy scardReaderState.zero.rgbAtr rs.Atr }
      match GetStatusChange_fill utf16 rest with
      | Except.error err => Except.error err
      | Except.ok cs => Except.ok (c :: cs)

/-- The second loop of `GetStatusChange` (source lines 227-233): `i` is the
loop index, the list holds `readerStates[i:]`, and `crs` is the array as the
native layer left it. -/
def GetStatusChange_readBack (crs : List scardReaderState) :
    Nat → List ReaderState → Run (List ReaderState)
  | _, [] => Run.returned []
  | i, rs :: rest =>
    match crs[i]? with
    | none => Run.panicked "index out of range"
    | some c =>
      let rs1 : ReaderState := { rs with EventState := StateFlag c.dwEventState }
      if c.cbAtr > 0 then
        -- `crs[i].rgbAtr[:crs[i].cbAtr]` panics beyond the 36 bytes of the array
        if c.cbAtr ≤ 36 then
          let rs2 : ReaderState :=
            { rs1 with Atr := goCopy (makeBytes c.cbAtr) (c.rgbAtr.take c.cbAtr) }
          Run.map (fun out => rs2 :: out) (GetStatusChange_readBack crs (i + 1) rest)
        else Run.panicked "slice bounds out of range"
      else Run.map (fun out => rs1 :: out) (GetStatusChange_readBack crs (i + 1) rest)

/-- The wrapper `(*Context).GetStatusChange`.  The result holds the reader
states after the call (they are updated in place) and the returned error. -/
def Context.GetStatusChange (env : Env) (utf16 : List Nat → List Nat) (sys : Native)
    (ctx : Context) (readerStates : List ReaderState) (timeout : Int) :
    Traced (List ReaderState × Option GoError) :=
  let dwTimeout := GetStatusChange_dwTimeout timeout
  match GetStatusChange_fill utf16 readerStates with
  | Except.error err => ⟨[], Run.returned (readerStates, some err)⟩
  | Except.ok crs =>
    -- `&crs[0]` panics on an empty slice
    if crs.length = 0 then ⟨[], Run.panicked "index out of range"⟩
    else
      let q : Request :=
        ⟨Proc.procGetStatusChange,
          [Arg.word ctx.ctx, Arg.word dwTimeout, Arg.states crs, Arg.word crs.length]⟩
      let resp := sys q
      if Error resp.r1 ≠ env.ErrSuccess then
        ⟨[q], Run.returned (readerStates, some (GoError.scard (Error resp.r1)))⟩
      else
        ⟨[q], Run.map (fun out => (out, none)) (GetStatusChange_readBack resp.states 0 readerStates)⟩

/-! ## Card wrappers -/

/-- The wrapper `(*Card).Disconnect`. -/
def Card.Disconnect (env : Env) (sys : Native) (card : Card) (d : Nat) : Traced (Option GoError) :=
  let q : Request := ⟨Proc.procDisconnect, [Arg.word card.handle, Arg.word d]⟩
  let r := (sys q).r1
  if Error r ≠ env.ErrSuccess then ⟨[q], Run.returned (some (GoError.scard (Error r)))⟩
  else ⟨[q], Run.returned none⟩

/-- The wrapper `(*Card).Reconnect`.  The first component is the `Card` after
the call: the body assigns to none of its fields. -/
def Card.Reconnect (env : Env) (sys : Native) (card : Card) (mode protocol init : Nat) :
    Card × Traced (Option GoError) :=
  let q : Request := ⟨Proc.procReconnect, [Arg.word card.handle, Arg.word protocol, Arg.word init]⟩
  let r := (sys q).r1
  if Error r ≠ env.ErrSuccess then (card, ⟨[q], Run.returned (some (GoError.scard (Error r)))⟩)
  else (card, ⟨[q], Run.returned none⟩)

/-- The wrapper `(*Card).BeginTransaction`. -/
def Card.BeginTransaction (env : Env) (sys : Native) (card : Card) : Traced (Option GoError) :=
  let q : Request := ⟨Proc.procBeginTransaction, [Arg.word card.handle]⟩
  let r := (sys q).r1
  if Error r ≠ env.ErrSuccess then ⟨[q], Run.returned (some (GoError.scard (Error r)))⟩
  else ⟨[q], Run.returned none⟩

/-- The wrapper `(*Card).EndTransaction`. -/
def Card.EndTransaction (env : Env) (sys : Native) (card : Card) (d : Nat) : Traced (Option GoError) :=
  let q : Request := ⟨Proc.procEndTransaction, [Arg.word card.handle, Arg.word d]⟩
  let r := (sys q).r1
  if Error r ≠ env.ErrSuccess then ⟨[q], Run.returned (some (GoError.scard (Error r)))⟩
  else ⟨[q], Run.returned none⟩

/-- The body of `(*Card).Transmit` after the `switch` has chosen `sendpci`
(source lines 341-358). -/
def Transmit_send (env : Env) (sys : Native) (card : Card) (cmd : List Nat) (sendpci : Nat) :
    Traced (Except GoError (List Nat)) :=
  let recv := makeBytes env.maxBufferSizeExtended
  let recvlen := uint32 recv.length
  -- `&cmd[0]` and `&recv[0]` panic on an empty slice or array
  if cmd.length = 0 then ⟨[], Run.panicked "index out of range"⟩
  else if recv.length = 0 then ⟨[], Run.panicked "index out of range"⟩
  else
    let q : Request :=
      ⟨Proc.procTransmit,
        [Arg.word card.handle, Arg.word sendpci, Arg.bytes cmd, Arg.word cmd.length,
          Arg.word 0, Arg.bytes recv, Arg.dword recvlen]⟩
    let resp := sys q
    if Error resp.r1 ≠ env.ErrSuccess then
      ⟨[q], Run.returned (Except.error (GoError.scard (Error resp.r1)))⟩
    else if resp.recvlen ≤ env.maxBufferSizeExtended then
      ⟨[q], Run.returned (Except.ok (goCopy (makeBytes resp.recvlen) (resp.recv.take resp.recvlen)))⟩
    else ⟨[q], Run.panicked "slice bounds out of range"⟩

/-- The wrapper `(*Card).Transmit`. -/
def Card.Transmit (env : Env) (sys : Native) (card : Card) (cmd : List Nat) :
    Traced (Except GoError (List Nat)) :=
  if Protocol card.activeProtocol = env.ProtocolT0 then
    Transmit_send env sys card cmd env.scardIoReqT0
  else if Protocol card.activeProtocol = env.ProtocolT1 then
    Transmit_send env sys card cmd env.scardIoReqT1
  else ⟨[], Run.panicked "unknown protocol"⟩

/-! ## Native layers used at concrete inputs -/

/-- A response that carries a status code and touches no memory of an empty
request. -/
def Response.status (r1 : Nat) : Response :=
  { r1 := r1, states := [], recv := [], recvlen := 0 }

/-- A native layer that gives the same response to every request. -/
def Native.const (resp : Response) : Native := fun _ => resp

/-- The reader-state array a request points at (its third argument), if any. -/
def Request.states (q : Request) : List scardReaderState :=
  match q.args[2]? with
  | some (Arg.states p) => p
  | _ => []

/-- A native layer that returns the status `r1` and leaves the reader-state
array of the request as it found it. -/
def Native.idle (r1 : Nat) : Native :=
  fun q => { r1 := r1, states := q.states, recv := [], recvlen := 0 }

/-- What the second loop of `GetStatusChange` makes of one entry `rs` given
its native record `c`, when the slice expression does not fault. -/
def GetStatusChange_entry (rs : ReaderState) (c : scardReaderState) : ReaderState :=
  { rs with
    EventState := StateFlag c.dwEventState
    Atr := if c.cbAtr > 0 then goCopy (makeBytes c.cbAtr) (c.rgbAtr.take c.cbAtr) else rs.Atr }

/-- Two reader states as a caller passes them to a first `GetStatusChange`:
readers "A" and "B", nothing known yet. -/
def sampleReaderStates : List ReaderState :=
  [{ Reader := [65], CurrentState := 0, EventState := 0, Atr := [] },
   { Reader := [66], CurrentState := 0, EventState := 0, Atr := [] }]

/-- A successful native answer for `sampleReaderStates`: a card with the
two-byte ATR `3B 00` in reader "A" (event state `0x22`), and reader "B"
empty (event state `0x12`, no ATR). -/
def sampleResponse : Response :=
  { r1 := 0
    states :=
      [{ szReader := [65, 0], pvUserData := 0, dwCurrentState := 0, dwEventState := 0x22,
         cbAtr := 2, rgbAtr := 0x3B :: 0x00 :: List.replicate 34 0 },
       { szReader := [66, 0], pvUserData := 0, dwCurrentState := 0, dwEventState := 0x12,
         cbAtr := 0, rgbAtr := List.replicate 36 0 }]
    recv := []
    recvlen := 0 }

/-! ## Multi-string decoding: lemmas -/

theorem scanNul_segment (s t : List Nat) (p : Nat) (hs : 0 ∉ s) :
    scanNul (s ++ 0 :: t) p = p + s.length := by
  induction s generalizing p with
  | nil => simp [scanNul]
  | cons x xs ih =>
    have hx : x ≠ 0 := fun h => hs (by simp [h])
    have hxs : 0 ∉ xs := fun h => hs (by simp [h])
    simp [scanNul, hx, ih (p + 1) hxs]
    omega

theorem scanNul_le (data : List Nat) (p : Nat) : scanNul data p ≤ p + data.length := by
  induction data generalizing p with
  | nil => simp [scanNul]
  | cons x xs ih =>
    simp only [scanNul, List.length_cons]
    split
    · omega
    · have := ih (p + 1); omega

theorem ListReaderGroups_loop_eq {σ : Type} (conv : List Nat → σ) (fuel : Nat)
    (data : List Nat) (acc : List σ) :
    ListReaderGroups_loop conv fuel data acc = ListReaders_loop conv fuel data acc := by
  induction fuel generalizing data acc with
  | zero => rfl
  | succ n ih => simp only [ListReaderGroups_loop, ListReaders_loop, ih]

theorem ListReaderGroups_decode_eq {σ : Type} (conv : List Nat → σ) (data : List Nat) :
    ListReaderGroups_decode conv data = ListReaders_decode conv data := by
  simp only [ListReaderGroups_decode, ListReaders_decode, ListReaderGroups_loop_eq]

/-- Any two iteration bounds above `len(data)` give the same outcome. -/
theorem ListReaders_loop_fuel {σ : Type} (conv : List Nat → σ) (f g : Nat)
    (data : List Nat) (acc : List σ) (hf : data.length < f) (hg : data.length < g) :
    ListReaders_loop conv f data acc = ListReaders_loop conv g data acc := by
  induction f generalizing g data acc with
  | zero => omega
  | succ n ih =>
    cases g with
    | zero => omega
    | succ m =>
      simp only [ListReaders_loop]
      split
      · split
        · apply ih
          · simp only [List.length_drop]; omega
          · simp only [List.length_drop]; omega
        · rfl
      · rfl

/-- One iteration on a buffer that starts with a non-empty NUL-free segment. -/
theorem ListReaders_loop_segment {σ : Type} (conv : List Nat → σ) (fuel : Nat)
    (s t : List Nat) (acc : List σ) (hne : s ≠ []) (hs : 0 ∉ s) :
    ListReaders_loop conv (fuel + 1) (s ++ 0 :: t) acc =
      ListReaders_loop conv fuel t (acc ++ [conv s]) := by
  have hpos : scanNul (s ++ 0 :: t) 0 = s.length := by
    rw [scanNul_segment s t 0 hs]; omega
  have hhead : (s ++ 0 :: t).headD 0 ≠ 0 := by
    cases s with
    | nil => exact absurd rfl hne
    | cons x xs =>
      have hx : x ≠ 0 := fun h => hs (by simp [h])
      simpa using hx
  have hdrop : (s ++ 0 :: t).drop (s.length + 1) = t := by
    rw [show s ++ 0 :: t = (s ++ [0]) ++ t by simp]
    rw [List.drop_left' (by simp)]
  have htake : (s ++ 0 :: t).take s.length = s := by
    rw [List.take_left' rfl]
  simp only [ListReaders_loop, hpos, hdrop, htake]
  rw [if_pos (by simp), if_pos hhead, if_pos (by simp)]

/-- One iteration on a buffer that starts with a NUL: the empty segment is
skipped and the loop goes on. -/
theorem ListReaders_loop_nul {σ : Type} (conv : List Nat → σ) (fuel : Nat)
    (t : List Nat) (acc : List σ) :
    ListReaders_loop conv (fuel + 1) (0 :: t) acc = ListReaders_loop conv fuel t acc := by
  simp [ListReaders_loop, scanNul]

/-- The loop consumes a run of non-empty NUL-free segments one by one. -/
theorem ListReaders_loop_segments {σ : Type} (conv : List Nat → σ) (L : List (List Nat))
    (hL : ∀ s ∈ L, s ≠ [] ∧ 0 ∉ s) (fuel : Nat) (t : List Nat) (acc : List σ)
    (hfuel : (segments L ++ t).length < fuel) :
    ListReaders_loop conv fuel (segments L ++ t) acc =
      ListReaders_loop conv (t.length + 1) t (acc ++ L.map conv) := by
  induction L generalizing fuel acc with
  | nil =>
    simp only [segments, List.nil_append, List.map_nil, List.append_nil] at hfuel ⊢
    exact ListReaders_loop_fuel conv _ _ t acc hfuel (by omega)
  | cons s rest ih =>
    obtain ⟨hne, hs⟩ := hL s (by simp)
    have hrest : ∀ u ∈ rest, u ≠ [] ∧ 0 ∉ u := fun u hu => hL u (by simp [hu])
    cases fuel with
    | zero => omega
    | succ n =>
      have hshape : segments (s :: rest) ++ t = s ++ 0 :: (segments rest ++ t) := by
        simp [segments]
      rw [hshape] at hfuel ⊢
      rw [ListReaders_loop_segment conv n s _ acc hne hs]
      rw [ih hrest n (acc ++ [conv s]) (by simp at hfuel ⊢; omega)]
      simp

/-- The slice built so far is only ever appended to. -/
theorem ListReaders_loop_acc {σ : Type} (conv : List Nat → σ) (fuel : Nat)
    (data : List Nat) (acc : List σ) :
    ListReaders_loop conv fuel data acc =
      Run.map (fun out => acc ++ out) (ListReaders_loop conv fuel data []) := by
  induction fuel generalizing data acc with
  | zero => rfl
  | succ n ih =>
    simp only [ListReaders_loop]
    split
    · split
      · split
        · rw [ih _ (acc ++ _), ih _ ([] ++ _)]
          cases ListReaders_loop conv n (List.drop (scanNul data 0 + 1) data) [] <;>
            simp [Run.map]
        · exact ih _ acc
      · rfl
    · simp [Run.map]

/-- The decode of a run of segments, a terminating NUL and a remainder is the
segments followed by the decode of the remainder. -/
theorem ListReaders_decode_segments {σ : Type} (conv : List Nat → σ) (L : List (List Nat))
    (hL : ∀ s ∈ L, s ≠ [] ∧ 0 ∉ s) (rest : List Nat) :
    ListReaders_decode conv (segments L ++ 0 :: rest) =
      Run.map (fun out => L.map conv ++ out) (ListReaders_decode conv rest) := by
  unfold ListReaders_decode
  rw [ListReaders_loop_segments conv L hL _ (0 :: rest) [] (by omega)]
  simp only [List.length_cons, List.nil_append]
  rw [ListReaders_loop_nul, ListReaders_loop_acc]

/-- A buffer of NULs only decodes to no strings: each NUL is skipped. -/
theorem ListReaders_decode_nuls {σ : Type} (conv : List Nat → σ) (rest : List Nat)
    (hrest : ∀ x ∈ rest, x = 0) : ListReaders_decode conv rest = Run.returned [] := by
  unfold ListReaders_decode
  induction rest with
  | nil => simp [ListReaders_loop]
  | cons x xs ih =>
    have hx : x = 0 := hrest x (by simp)
    subst hx
    rw [List.length_cons, ListReaders_loop_nul]
    exact ih (fun y hy => hrest y (by simp [hy]))

/-- C1: for every list `L` of strings, each non-empty and free of NUL code
units, the decode loop of `ListReaders` and of `ListReaderGroups`, run on the
buffer `encode L = s1 ++ [0] ++ ... ++ sN ++ [0] ++ [0]` (`[0]` for no
strings), returns the conversions of exactly the segments `s1, ..., sN`, in
that order; with the identity as conversion the result is `L` itself. -/
theorem decode_encode_roundtrip {σ : Type} (UTF16ToString : List Nat → σ)
    (L : List (List Nat)) (hL : ∀ s ∈ L, s ≠ [] ∧ 0 ∉ s) :
    ListReaders_decode UTF16ToString (encode L) = Run.returned (L.map UTF16ToString) ∧
    ListReaderGroups_decode UTF16ToString (encode L) = Run.returned (L.map UTF16ToString) ∧
    ListReaders_decode id (encode L) = Run.returned L ∧
    ListReaderGroups_decode id (encode L) = Run.returned L := by
  have key : ∀ {τ : Type} (conv : List Nat → τ),
      ListReaders_decode conv (encode L) = Run.returned (L.map conv) := by
    intro τ conv
    unfold encode
    rw [ListReaders_decode_segments conv L hL []]
    rw [ListReaders_decode_nuls conv [] (by simp)]
    simp [Run.map]
  refine ⟨key UTF16ToString, ?_, ?_, ?_⟩
  · rw [ListReaderGroups_decode_eq]; exact key UTF16ToString
  · simpa using key id
  · rw [ListReaderGroups_decode_eq]; simpa using key id

/-- Witness for C1: the buffer of the two readers "RA" and "RB", and the
buffer `[0]` of no readers. -/
theorem decode_encode_roundtrip_witness :
    (∀ s ∈ [[82, 65], [82, 66]], s ≠ [] ∧ (0 : Nat) ∉ s) ∧
    encode [[82, 65], [82, 66]] = [82, 65, 0, 82, 66, 0, 0] ∧
    (ListReaders_decode id (encode [[82, 65], [82, 66]]) = Run.returned [[82, 65], [82, 66]] ∧
     ListReaderGroups_decode id (encode [[82, 65], [82, 66]]) =
       Run.returned [[82, 65], [82, 66]]) ∧
    encode [] = [0] ∧
    ListReaders_decode id (encode []) = Run.returned [] :=
  ⟨by decide, by decide,
   ⟨(decode_encode_roundtrip id [[82, 65], [82, 66]] (by decide)).2.2.1,
    (decode_encode_roundtrip id [[82, 65], [82, 66]] (by decide)).2.2.2⟩,
   by decide,
   (decode_encode_roundtrip id [] (by decide)).2.2.1⟩

/-- C5, as stated, fails: on the buffer `"a" 0 0 "b" 0` (one segment, the
terminating extra NUL, then the remainder `"b" 0`) both loops return the two
strings "a" and "b", not only "a". -/
theorem decode_stops_at_empty_segment_counterexample :
    (∀ s ∈ [[97]], s ≠ [] ∧ (0 : Nat) ∉ s) ∧
    segments [[97]] ++ 0 :: [98, 0] = [97, 0, 0, 98, 0] ∧
    ListReaders_decode id (segments [[97]] ++ 0 :: [98, 0]) = Run.returned [[97], [98]] ∧
    ListReaderGroups_decode id (segments [[97]] ++ 0 :: [98, 0]) = Run.returned [[97], [98]] ∧
    ListReaders_decode id (segments [[97]] ++ 0 :: [98, 0]) ≠ Run.returned [[97]] ∧
    ListReaderGroups_decode id (segments [[97]] ++ 0 :: [98, 0]) ≠ Run.returned [[97]] := by
  decide

/-- C5, amended: the loops do not stop at the first empty segment, they skip
it and run to the end of the buffer.  For every buffer
`s1 ++ [0] ++ ... ++ sN ++ [0] ++ [0] ++ rest` with each `si` non-empty and
NUL-free, the outcome is `[s1, ..., sN]` followed by the outcome of the same
loop on `rest` (a fault when that one faults); it is exactly `[s1, ..., sN]`
when `rest` holds nothing but NULs. -/
theorem decode_continues_after_empty_segment {σ : Type} (UTF16ToString : List Nat → σ)
    (L : List (List Nat)) (rest : List Nat) (hL : ∀ s ∈ L, s ≠ [] ∧ 0 ∉ s) :
    ListReaders_decode UTF16ToString (segments L ++ 0 :: rest) =
      Run.map (fun out => L.map UTF16ToString ++ out) (ListReaders_decode UTF16ToString rest) ∧
    ListReaderGroups_decode UTF16ToString (segments L ++ 0 :: rest) =
      Run.map (fun out => L.map UTF16ToString ++ out)
        (ListReaderGroups_decode UTF16ToString rest) ∧
    ((∀ x ∈ rest, x = 0) →
      ListReaders_decode UTF16ToString (segments L ++ 0 :: rest) =
        Run.returned (L.map UTF16ToString) ∧
      ListReaderGroups_decode UTF16ToString (segments L ++ 0 :: rest) =
        Run.returned (L.map UTF16ToString)) := by
  have h1 := ListReaders_decode_segments UTF16ToString L hL rest
  refine ⟨h1, ?_, ?_⟩
  · rw [ListReaderGroups_decode_eq, ListReaderGroups_decode_eq]; exact h1
  · intro hrest
    have h2 : ListReaders_decode UTF16ToString (segments L ++ 0 :: rest) =
        Run.returned (L.map UTF16ToString) := by
      rw [h1, ListReaders_decode_nuls UTF16ToString rest hrest]
      simp [Run.map]
    exact ⟨h2, by rw [ListReaderGroups_decode_eq]; exact h2⟩

/-- Witness for the amended C5: a remainder with a further string, and a
remainder of two NULs. -/
theorem decode_continues_after_empty_segment_witness :
    (∀ s ∈ [[97]], s ≠ [] ∧ (0 : Nat) ∉ s) ∧
    ListReaders_decode id (segments [[97]] ++ 0 :: [98, 0]) =
      Run.map (fun out => [[97]].map id ++ out) (ListReaders_decode id [98, 0]) ∧
    (∀ x ∈ [0, 0], x = 0) ∧
    ListReaders_decode id (segments [[97]] ++ 0 :: [0, 0]) = Run.returned ([[97]].map id) :=
  ⟨by decide,
   (decode_continues_after_empty_segment id [[97]] [98, 0] (by decide)).1,
   by decide,
   ((decode_continues_after_empty_segment id [[97]] [0, 0] (by decide)).2.2 (by decide)).1⟩

/-! ## Timeout mapping -/

theorem uint32_of_lt (x : Int) (h0 : 0 ≤ x) (h1 : x < 2 ^ 32) : (uint32 x : Int) = x := by
  unfold uint32
  rw [Int.emod_eq_of_lt h0 h1]
  exact Int.toNat_of_nonneg h0

theorem uint32_natCast_of_lt (n : Nat) (h : n < 2 ^ 32) : uint32 (n : Int) = n := by
  have := uint32_of_lt (n : Int) (by omega) (by exact_mod_cast h)
  exact_mod_cast this

/-- Every native request that `GetStatusChange` issues carries the mapped
timeout as its second argument. -/
theorem GetStatusChange_calls_timeout (env : Env) (utf16 : List Nat → List Nat) (sys : Native)
    (ctx : Context) (readerStates : List ReaderState) (timeout : Int) :
    ∀ q ∈ (Context.GetStatusChange env utf16 sys ctx readerStates timeout).calls,
      q.proc = Proc.procGetStatusChange ∧
      q.args[1]? = some (Arg.word (GetStatusChange_dwTimeout timeout)) := by
  intro q hq
  unfold Context.GetStatusChange at hq
  split at hq
  · simp at hq
  · split at hq
    · simp at hq
    · dsimp only at hq
      split at hq <;> simp at hq <;> subst hq <;> simp

/-- C2: for every 64-bit duration `d` in nanoseconds, the timeout passed to
the native layer is `0xFFFFFFFF` when `d < 0`, `0xFFFFFFFE` when `d` exceeds
`0xFFFFFFFF` milliseconds, and otherwise `d` divided by one millisecond,
rounded toward zero, without 32-bit wrap-around; `0` maps to `0` and 2500 ms
to `2500`. -/
theorem GetStatusChange_timeout_mapping (d : Int) (hmin : -2 ^ 63 ≤ d) (hmax : d < 2 ^ 63) :
    (d < 0 → GetStatusChange_dwTimeout d = 0xFFFFFFFF) ∧
    (d > 0xFFFFFFFF * Millisecond → GetStatusChange_dwTimeout d = 0xFFFFFFFE) ∧
    (0 ≤ d → d ≤ 0xFFFFFFFF * Millisecond →
      (GetStatusChange_dwTimeout d : Int) = Int.tdiv d Millisecond) ∧
    GetStatusChange_dwTimeout 0 = 0 ∧
    GetStatusChange_dwTimeout (2500 * Millisecond) = 2500 ∧
    (∀ (env : Env) (utf16 : List Nat → List Nat) (sys : Native) (ctx : Context)
      (readerStates : List ReaderState),
      ∀ q ∈ (Context.GetStatusChange env utf16 sys ctx readerStates d).calls,
        q.args[1]? = some (Arg.word (GetStatusChange_dwTimeout d))) := by
  refine ⟨?_, ?_, ?_, ?_, ?_, ?_⟩
  · intro h
    simp [GetStatusChange_dwTimeout, h, infiniteTimeout]
  · intro h
    have h0 : ¬ d < 0 := by simp only [Millisecond] at h; omega
    have h1 : d > (infiniteTimeout : Int) * Millisecond := by
      simpa [infiniteTimeout] using h
    unfold GetStatusChange_dwTimeout
    rw [if_neg h0, if_pos h1]
    rfl
  · intro h0 h1
    have h0n : ¬ d < 0 := by omega
    have h1n : ¬ d > (infiniteTimeout : Int) * Millisecond := by
      simp only [infiniteTimeout, Millisecond] at h1 ⊢; omega
    simp only [GetStatusChange_dwTimeout, h0n, h1n, if_false]
    apply uint32_of_lt
    · exact Int.tdiv_nonneg h0 (by decide)
    · rw [Int.tdiv_eq_ediv h0 (by decide)]
      simp only [Millisecond] at h1 ⊢
      omega
  · decide
  · decide
  · intro env utf16 sys ctx readerStates q hq
    exact (GetStatusChange_calls_timeout env utf16 sys ctx readerStates d q hq).2

/-- Witness for C2: a negative duration, the largest 64-bit duration, and
2500 ms plus a fraction of a millisecond. -/
theorem GetStatusChange_timeout_mapping_witness :
    ((-2 ^ 63 : Int) ≤ -5 ∧ (-5 : Int) < 2 ^ 63 ∧ (-5 : Int) < 0) ∧
    GetStatusChange_dwTimeout (-5) = 0xFFFFFFFF ∧
    ((2 ^ 63 - 1 : Int) > 0xFFFFFFFF * Millisecond) ∧
    GetStatusChange_dwTimeout (2 ^ 63 - 1) = 0xFFFFFFFE ∧
    ((0 : Int) ≤ 2500999999 ∧ (2500999999 : Int) ≤ 0xFFFFFFFF * Millisecond) ∧
    (GetStatusChange_dwTimeout 2500999999 : Int) = Int.tdiv 2500999999 Millisecond ∧
    Int.tdiv 2500999999 Millisecond = 2500 :=
  ⟨by decide,
   (GetStatusChange_timeout_mapping (-5) (by decide) (by decide)).1 (by decide),
   by decide,
   (GetStatusChange_timeout_mapping (2 ^ 63 - 1) (by decide) (by decide)).2.1 (by decide),
   by decide,
   (GetStatusChange_timeout_mapping 2500999999 (by decide) (by decide)).2.2.1
     (by decide) (by decide),
   by decide⟩

/-- C4, evaluated on the code: the duration of exactly `0xFFFFFFFF`
milliseconds is not negative, is not above the clamping threshold (the test
is `>`), and is mapped to `0xFFFFFFFF`, the infinite-wait sentinel; every
other non-negative duration is mapped to at most `0xFFFFFFFE`. -/
theorem GetStatusChange_timeout_sentinel_collision :
    (0 : Int) ≤ 4294967295 * Millisecond ∧
    (4294967295 * Millisecond : Int) < 2 ^ 63 ∧
    GetStatusChange_dwTimeout (4294967295 * Millisecond) = 0xFFFFFFFF ∧
    GetStatusChange_dwTimeout (4294967295 * Millisecond) = infiniteTimeout ∧
    (∀ d : Int, 0 ≤ d → d ≠ 4294967295 * Millisecond →
      GetStatusChange_dwTimeout d ≤ 0xFFFFFFFE) := by
  refine ⟨by decide, by decide, by decide, by decide, ?_⟩
  intro d h0 hne
  unfold GetStatusChange_dwTimeout
  have h0n : ¬ d < 0 := by omega
  rw [if_neg h0n]
  split
  · decide
  · rename_i h1
    have hlt : Int.tdiv d Millisecond < 4294967295 := by
      rw [Int.tdiv_eq_ediv h0 (by decide)]
      simp only [infiniteTimeout, Millisecond] at h1 hne ⊢
      omega
    have hnn : 0 ≤ Int.tdiv d Millisecond := Int.tdiv_nonneg h0 (by decide)
    have hcast := uint32_of_lt (Int.tdiv d Millisecond) hnn (by omega)
    omega

/-! ## Error translation -/

theorem Error_of_lt (c : Nat) (hc : c < 2 ^ 32) : Error c = c :=
  uint32_natCast_of_lt c hc

/-- C7: for every 32-bit status code `c` that the native entry point returns,
each of `IsValid`, `Cancel`, `Release`, `Disconnect`, `BeginTransaction` and
`EndTransaction` reports success (nil error; `IsValid` true) exactly when `c`
is the success sentinel, and otherwise returns the `Error` with numeric value
`c` (`IsValid` false with it). -/
theorem handle_wrappers_translate_status (env : Env) (sys : Native) (ctx : Context)
    (card : Card) (d c : Nat) (hc : c < 2 ^ 32) (hsys : ∀ q, (sys q).r1 = c) :
    (Context.IsValid env sys ctx).out =
      Run.returned (if c = env.ErrSuccess then (true, none)
        else (false, some (GoError.scard c))) ∧
    (Context.Cancel env sys ctx).out =
      Run.returned (if c = env.ErrSuccess then none else some (GoError.scard c)) ∧
    (Context.Release env sys ctx).out =
      Run.returned (if c = env.ErrSuccess then none else some (GoError.scard c)) ∧
    (Card.Disconnect env sys card d).out =
      Run.returned (if c = env.ErrSuccess then none else some (GoError.scard c)) ∧
    (Card.BeginTransaction env sys card).out =
      Run.returned (if c = env.ErrSuccess then none else some (GoError.scard c)) ∧
    (Card.EndTransaction env sys card d).out =
      Run.returned (if c = env.ErrSuccess then none else some (GoError.scard c)) := by
  have hE := Error_of_lt c hc
  refine ⟨?_, ?_, ?_, ?_, ?_, ?_⟩
  · simp only [Context.IsValid, hsys, hE]
    by_cases h : c = env.ErrSuccess <;> simp [h]
  · simp only [Context.Cancel, hsys, hE]
    by_cases h : c = env.ErrSuccess <;> simp [h]
  · simp only [Context.Release, hsys, hE]
    by_cases h : c = env.ErrSuccess <;> simp [h]
  · simp only [Card.Disconnect, hsys, hE]
    by_cases h : c = env.ErrSuccess <;> simp [h]
  · simp only [Card.BeginTransaction, hsys, hE]
    by_cases h : c = env.ErrSuccess <;> simp [h]
  · simp only [Card.EndTransaction, hsys, hE]
    by_cases h : c = env.ErrSuccess <;> simp [h]

/-- Witness for C7: the failure code `0x80100003` and the success code `0`. -/
theorem handle_wrappers_translate_status_witness :
    ((0x80100003 : Nat) < 2 ^ 32 ∧
      ∀ q, (Native.const (Response.status 0x80100003) q).r1 = 0x80100003) ∧
    (Context.IsValid winscard (Native.const (Response.status 0x80100003)) ⟨5⟩).out =
      Run.returned (false, some (GoError.scard 0x80100003)) ∧
    (Card.Disconnect winscard (Native.const (Response.status 0x80100003)) ⟨7, 1⟩ 0).out =
      Run.returned (some (GoError.scard 0x80100003)) ∧
    (Context.IsValid winscard (Native.const (Response.status 0)) ⟨5⟩).out =
      Run.returned (true, none) :=
  ⟨⟨by decide, fun _ => rfl⟩,
   (handle_wrappers_translate_status winscard (Native.const (Response.status 0x80100003))
      ⟨5⟩ ⟨7, 1⟩ 0 0x80100003 (by decide) (fun _ => rfl)).1,
   (handle_wrappers_translate_status winscard (Native.const (Response.status 0x80100003))
      ⟨5⟩ ⟨7, 1⟩ 0 0x80100003 (by decide) (fun _ => rfl)).2.2.2.1,
   (handle_wrappers_translate_status winscard (Native.const (Response.status 0))
      ⟨5⟩ ⟨7, 1⟩ 0 0 (by decide) (fun _ => rfl)).1⟩

/-! ## Transmit -/

/-- C3, as stated, fails: a card whose active protocol is `0` (undefined,
neither `T0 = 1` nor `T1 = 2`) and the four-byte command `00 A4 04 00`:
`Transmit` panics with "unknown protocol" and returns no error result.
Whatever the values of the two protocol constants, some card does so. -/
theorem Transmit_unknown_protocol_counterexample :
    Protocol (Card.mk 7 0).activeProtocol ≠ winscard.ProtocolT0 ∧
    Protocol (Card.mk 7 0).activeProtocol ≠ winscard.ProtocolT1 ∧
    ([0x00, 0xA4, 0x04, 0x00] : List Nat) ≠ [] ∧
    (Card.Transmit winscard (Native.const (Response.status 0)) ⟨7, 0⟩
      [0x00, 0xA4, 0x04, 0x00]).out = Run.panicked "unknown protocol" ∧
    (¬ ∃ err, (Card.Transmit winscard (Native.const (Response.status 0)) ⟨7, 0⟩
      [0x00, 0xA4, 0x04, 0x00]).out = Run.returned (Except.error err)) ∧
    (∀ (env : Env) (sys : Native), ∃ card : Card,
      Protocol card.activeProtocol ≠ env.ProtocolT0 ∧
      Protocol card.activeProtocol ≠ env.ProtocolT1 ∧
      (Card.Transmit env sys card [0x00, 0xA4, 0x04, 0x00]).out =
        Run.panicked "unknown protocol") := by
  have hout : (Card.Transmit winscard (Native.const (Response.status 0)) ⟨7, 0⟩
      [0x00, 0xA4, 0x04, 0x00]).out = Run.panicked "unknown protocol" := by
    rfl
  refine ⟨by decide, by decide, by decide, hout, ?_, ?_⟩
  · rintro ⟨err, herr⟩
    rw [hout] at herr
    cases herr
  · intro env sys
    have hpick : ∃ x : Nat, x < 2 ^ 32 ∧ x ≠ env.ProtocolT0 ∧ x ≠ env.ProtocolT1 := by
      by_cases a0 : (0 : Nat) ≠ env.ProtocolT0 ∧ (0 : Nat) ≠ env.ProtocolT1
      · exact ⟨0, by decide, a0.1, a0.2⟩
      · by_cases a1 : (1 : Nat) ≠ env.ProtocolT0 ∧ (1 : Nat) ≠ env.ProtocolT1
        · exact ⟨1, by decide, a1.1, a1.2⟩
        · exact ⟨2, by decide, by omega, by omega⟩
    obtain ⟨x, hx, h0, h1⟩ := hpick
    have hP : Protocol (Card.mk 7 x).activeProtocol = x := uint32_natCast_of_lt x hx
    refine ⟨⟨7, x⟩, by rw [hP]; exact h0, by rw [hP]; exact h1, ?_⟩
    unfold Card.Transmit
    rw [if_neg (by rw [hP]; exact h0), if_neg (by rw [hP]; exact h1)]

/-- C3, amended: for every card whose active protocol is neither `T0` nor
`T1` and every non-empty command, `Transmit` does not invoke the native
Transmit entry point and does not return: it panics with "unknown
protocol". -/
theorem Transmit_unknown_protocol_panics (env : Env) (sys : Native) (card : Card)
    (cmd : List Nat) (h0 : Protocol card.activeProtocol ≠ env.ProtocolT0)
    (h1 : Protocol card.activeProtocol ≠ env.ProtocolT1) (_hcmd : cmd ≠ []) :
    (Card.Transmit env sys card cmd).calls = [] ∧
    (Card.Transmit env sys card cmd).out = Run.panicked "unknown protocol" := by
  unfold Card.Transmit
  rw [if_neg h0, if_neg h1]
  exact ⟨rfl, rfl⟩

/-- Witness for the amended C3: a card negotiated to the raw protocol
(`0x10000`). -/
theorem Transmit_unknown_protocol_panics_witness :
    (Protocol (Card.mk 7 0x10000).activeProtocol ≠ winscard.ProtocolT0 ∧
      Protocol (Card.mk 7 0x10000).activeProtocol ≠ winscard.ProtocolT1 ∧
      ([0x00, 0xA4, 0x04, 0x00] : List Nat) ≠ []) ∧
    (Card.Transmit winscard (Native.const (Response.status 0)) ⟨7, 0x10000⟩
      [0x00, 0xA4, 0x04, 0x00]).calls = [] ∧
    (Card.Transmit winscard (Native.const (Response.status 0)) ⟨7, 0x10000⟩
      [0x00, 0xA4, 0x04, 0x00]).out = Run.panicked "unknown protocol" :=
  ⟨by decide,
   Transmit_unknown_protocol_panics winscard (Native.const (Response.status 0)) ⟨7, 0x10000⟩
     [0x00, 0xA4, 0x04, 0x00] (by decide) (by decide) (by decide)⟩

/-! ## Reconnect -/

/-- `Reconnect` never changes the `Card`. -/
theorem Reconnect_card_unchanged (env : Env) (sys : Native) (card : Card)
    (mode protocol init : Nat) : (Card.Reconnect env sys card mode protocol init).1 = card := by
  unfold Card.Reconnect
  dsimp only
  split <;> rfl

/-- The one native request of `Reconnect`: the handle, the protocol and the
initialization, in that order. -/
theorem Reconnect_calls (env : Env) (sys : Native) (card : Card) (mode protocol init : Nat) :
    (Card.Reconnect env sys card mode protocol init).2.calls =
      [⟨Proc.procReconnect, [Arg.word card.handle, Arg.word protocol, Arg.word init]⟩] := by
  unfold Card.Reconnect
  dsimp only
  split <;> rfl

/-- With a non-empty command and a non-empty receive buffer, the body of
`Transmit` issues one native request, whose first two arguments are the card
handle and the chosen framing descriptor. -/
theorem Transmit_send_calls (env : Env) (sys : Native) (card : Card) (cmd : List Nat)
    (sendpci : Nat) (hcmd : cmd ≠ []) (hcap : env.maxBufferSizeExtended ≠ 0) :
    (Transmit_send env sys card cmd sendpci).calls.map (fun q => q.args.take 2) =
      [[Arg.word card.handle, Arg.word sendpci]] := by
  have h1 : ¬ cmd.length = 0 := by
    intro h; exact hcmd (List.length_eq_zero.mp h)
  have h2 : ¬ (makeBytes env.maxBufferSizeExtended).length = 0 := by
    simp only [makeBytes, List.length_replicate]; exact hcap
  unfold Transmit_send
  dsimp only
  rw [if_neg h1, if_neg h2]
  split
  · rfl
  · split <;> rfl

/-- C8, evaluated on the code: a card connected with `T0`, reconnected with
`T1` as the only acceptable protocol; the native call succeeds, `Reconnect`
returns nil, and the card still records `T0`, so that the next `Transmit`
sends with the `T0` framing descriptor.  No argument of the native request
gives the native layer a place to report the protocol, and no `Reconnect`
changes the card. -/
theorem Reconnect_keeps_connect_protocol :
    (Card.Reconnect winscard (Native.idle 0) ⟨7, winscard.ProtocolT0⟩ 2
      winscard.ProtocolT1 1).2.out = Run.returned none ∧
    (Card.Reconnect winscard (Native.idle 0) ⟨7, winscard.ProtocolT0⟩ 2
      winscard.ProtocolT1 1).1.activeProtocol = winscard.ProtocolT0 ∧
    winscard.ProtocolT0 ≠ winscard.ProtocolT1 ∧
    (Card.Transmit winscard (Native.idle 0)
      (Card.Reconnect winscard (Native.idle 0) ⟨7, winscard.ProtocolT0⟩ 2
        winscard.ProtocolT1 1).1 [0x00, 0xA4, 0x04, 0x00]).calls.map
        (fun q => q.args.take 2) = [[Arg.word 7, Arg.word winscard.scardIoReqT0]] ∧
    (∀ (env : Env) (sys : Native) (card : Card) (mode protocol init : Nat),
      (Card.Reconnect env sys card mode protocol init).1.activeProtocol =
        card.activeProtocol) := by
  refine ⟨by decide, by decide, by decide, ?_, ?_⟩
  · rw [Reconnect_card_unchanged]
    have hT0 : Protocol (Card.mk 7 winscard.ProtocolT0).activeProtocol = winscard.ProtocolT0 := by
      decide
    unfold Card.Transmit
    rw [if_pos hT0]
    exact Transmit_send_calls winscard (Native.idle 0) ⟨7, winscard.ProtocolT0⟩ _ _
      (by decide) (by decide)
  · intro env sys card mode protocol init
    rw [Reconnect_card_unchanged]

/-- C9, evaluated on the code: with share mode exclusive (`1`) and with share
mode shared (`2`), the same card, protocol and initialization, `Reconnect`
issues the same native request, which carries three arguments (handle,
protocol, initialization) and no share mode; this holds for any two share
modes.  The handle of the card is unchanged. -/
theorem Reconnect_request_ignores_share_mode :
    (1 : Nat) ≠ 2 ∧
    (Card.Reconnect winscard (Native.idle 0) ⟨7, 1⟩ 1 3 0).2.calls =
      (Card.Reconnect winscard (Native.idle 0) ⟨7, 1⟩ 2 3 0).2.calls ∧
    (Card.Reconnect winscard (Native.idle 0) ⟨7, 1⟩ 1 3 0).2.calls =
      [⟨Proc.procReconnect, [Arg.word 7, Arg.word 3, Arg.word 0]⟩] ∧
    (∀ (env : Env) (sys : Native) (card : Card) (m1 m2 p d : Nat),
      (Card.Reconnect env sys card m1 p d).2.calls =
        (Card.Reconnect env sys card m2 p d).2.calls) ∧
    (∀ (env : Env) (sys : Native) (card : Card) (m p d : Nat),
      (Card.Reconnect env sys card m p d).1.handle = card.handle) := by
  refine ⟨by decide, by decide, by decide, ?_, ?_⟩
  · intro env sys card m1 m2 p d
    rw [Reconnect_calls, Reconnect_calls]
  · intro env sys card m p d
    rw [Reconnect_card_unchanged]

/-! ## GetStatusChange: the records handed to the native layer -/

/-- C10, evaluated on the code: a reader state with an ATR of 37 bytes.  The
record handed to the native layer holds the first 36 bytes but an ATR length
field of 37, not `min 37 36 = 36`; when the native layer succeeds and leaves
that record alone, the read-back slices the 36-byte array up to 37 and the
wrapper panics. -/
theorem GetStatusChange_atr_length_not_truncated :
    (Context.GetStatusChange winscard id (Native.idle 0) ⟨5⟩
      [⟨[65], 0, 0, List.replicate 37 1⟩] 0).calls =
      [⟨Proc.procGetStatusChange,
        [Arg.word 5, Arg.word 0,
          Arg.states [⟨[65, 0], 0, 0, 0, 37, List.replicate 36 1⟩], Arg.word 1]⟩] ∧
    min (List.replicate 37 1).length 36 ≠ 37 ∧
    (Context.GetStatusChange winscard id (Native.idle 0) ⟨5⟩
      [⟨[65], 0, 0, List.replicate 37 1⟩] 0).out =
      Run.panicked "slice bounds out of range" := by
  refine ⟨by decide, by decide, by decide⟩

/-! ## GetStatusChange: the read-back after a successful call -/

/-- With NUL-free names the first loop fails on no entry and fills one record
per reader state. -/
theorem GetStatusChange_fill_ok (utf16 : List Nat → List Nat) (readerStates : List ReaderState)
    (hnames : ∀ rs ∈ readerStates, 0 ∉ rs.Reader) :
    ∃ crs, GetStatusChange_fill utf16 readerStates = Except.ok crs ∧
      crs.length = readerStates.length := by
  induction readerStates with
  | nil => exact ⟨[], rfl, rfl⟩
  | cons rs rest ih =>
    obtain ⟨cs, hcs, hlen⟩ := ih (fun r hr => hnames r (by simp [hr]))
    have hrs : 0 ∉ rs.Reader := hnames rs (by simp)
    simp only [GetStatusChange_fill, UTF16PtrFromString, if_neg hrs, hcs]
    exact ⟨_, rfl, by simp [hlen]⟩

/-- Copying the first `n` bytes of a buffer of at least `n` bytes into a
fresh slice of length `n` gives exactly those bytes. -/
theorem goCopy_make_take (l : List Nat) (n : Nat) (hn : n ≤ l.length) :
    goCopy (makeBytes n) (l.take n) = l.take n := by
  unfold goCopy makeBytes
  have h1 : (l.take n).length = n := by simp [hn]
  rw [List.length_replicate, h1, List.drop_replicate, Nat.sub_self]
  rw [List.take_take]
  simp

/-- When no ATR length exceeds the 36 bytes of the array, the second loop
faults on no entry and updates the entries position by position. -/
theorem GetStatusChange_readBack_ok (crs : List scardReaderState)
    (hatr : ∀ c ∈ crs, c.cbAtr ≤ 36) (readerStates : List ReaderState) (i : Nat)
    (hlen : i + readerStates.length ≤ crs.length) :
    GetStatusChange_readBack crs i readerStates =
      Run.returned (List.zipWith GetStatusChange_entry readerStates (crs.drop i)) := by
  induction readerStates generalizing i with
  | nil => simp [GetStatusChange_readBack]
  | cons rs rest ih =>
    have hi : i < crs.length := by simp at hlen; omega
    have hc : crs[i].cbAtr ≤ 36 := hatr _ (List.getElem_mem _)
    have hrest := ih (i + 1) (by simp at hlen; omega)
    rw [List.drop_eq_getElem_cons hi, List.zipWith_cons_cons]
    simp only [GetStatusChange_readBack, List.getElem?_eq_getElem hi, hrest]
    by_cases h0 : crs[i].cbAtr > 0
    · simp [h0, hc, Run.map, GetStatusChange_entry]
    · simp [h0, Run.map, GetStatusChange_entry]

/-- C6: for every non-empty `readerStates` with NUL-free reader names and
every successful native outcome whose ATR lengths are at most 36, the call
returns nil and afterwards every entry `i` has the event state reported for
entry `i`, has as ATR the first `cbAtr` reported bytes whenever `cbAtr > 0`,
and has its reader name and current state unchanged. -/
theorem GetStatusChange_populates_every_entry (env : Env) (utf16 : List Nat → List Nat)
    (sys : Native) (ctx : Context) (readerStates : List ReaderState) (timeout : Int)
    (resp : Response)
    (hne : readerStates ≠ [])
    (hnames : ∀ rs ∈ readerStates, 0 ∉ rs.Reader)
    (hsys : ∀ q, q.proc = Proc.procGetStatusChange → sys q = resp)
    (hok : Error resp.r1 = env.ErrSuccess)
    (hlen : resp.states.length = readerStates.length)
    (hatr : ∀ c ∈ resp.states, c.cbAtr ≤ 36 ∧ c.rgbAtr.length = 36) :
    ∃ out, (Context.GetStatusChange env utf16 sys ctx readerStates timeout).out =
        Run.returned (out, none) ∧
      out.length = readerStates.length ∧
      ∀ (i : Nat) (hi : i < readerStates.length) (ho : i < out.length)
        (hc : i < resp.states.length),
        out[i].EventState = resp.states[i].dwEventState ∧
        (0 < resp.states[i].cbAtr →
          out[i].Atr = resp.states[i].rgbAtr.take resp.states[i].cbAtr) ∧
        out[i].Reader = readerStates[i].Reader ∧
        out[i].CurrentState = readerStates[i].CurrentState := by
  obtain ⟨crs, hfill, hcrs⟩ := GetStatusChange_fill_ok utf16 readerStates hnames
  have hcrs0 : ¬ crs.length = 0 := by
    rw [hcrs]; intro h; exact hne (List.length_eq_zero.mp h)
  have hback := GetStatusChange_readBack_ok resp.states (fun c hc => (hatr c hc).1)
    readerStates 0 (by omega)
  refine ⟨List.zipWith GetStatusChange_entry readerStates resp.states, ?_, ?_, ?_⟩
  · unfold Context.GetStatusChange
    simp only [hfill]
    rw [if_neg hcrs0, hsys _ rfl]
    simp only [ne_eq, hok, not_true_eq_false, if_false, hback, List.drop_zero, Run.map]
  · simp [hlen]
  · intro i hi ho hc
    rw [List.getElem_zipWith]
    have hc36 := hatr _ (List.getElem_mem hc)
    refine ⟨rfl, ?_, rfl, rfl⟩
    intro hpos
    simp only [GetStatusChange_entry, gt_iff_lt, hpos, if_true]
    exact goCopy_make_take _ _ (by omega)

/-- Witness for C6: the two sample reader states and the sample answer. -/
theorem GetStatusChange_populates_every_entry_witness :
    (sampleReaderStates ≠ [] ∧ (∀ rs ∈ sampleReaderStates, 0 ∉ rs.Reader) ∧
      Error sampleResponse.r1 = winscard.ErrSuccess ∧
      sampleResponse.states.length = sampleReaderStates.length ∧
      ∀ c ∈ sampleResponse.states, c.cbAtr ≤ 36 ∧ c.rgbAtr.length = 36) ∧
    ∃ out, (Context.GetStatusChange winscard id (Native.const sampleResponse) ⟨5⟩
        sampleReaderStates 0).out = Run.returned (out, none) ∧
      out.length = sampleReaderStates.length ∧
      ∀ (i : Nat) (hi : i < sampleReaderStates.length) (ho : i < out.length)
        (hc : i < sampleResponse.states.length),
        out[i].EventState = sampleResponse.states[i].dwEventState ∧
        (0 < sampleResponse.states[i].cbAtr →
          out[i].Atr = sampleResponse.states[i].rgbAtr.take sampleResponse.states[i].cbAtr) ∧
        out[i].Reader = sampleReaderStates[i].Reader ∧
        out[i].CurrentState = sampleReaderStates[i].CurrentState :=
  ⟨⟨by decide, by decide, by decide, by decide, by decide⟩,
   GetStatusChange_populates_every_entry winscard id (Native.const sampleResponse) ⟨5⟩
     sampleReaderStates 0 sampleResponse (by decide) (by decide) (fun _ _ => rfl)
     (by decide) (by decide) (by decide)⟩

end Scard
